import Mathlib

/-!
# Verification of the vibex-sh CLI session-stream core (src/index.js)

This file is a shallow embedding, in Lean 4, of the session-stream
reliability core of the vibex CLI: the line decoder (`rl.on('line')`),
the delivery queue and connection flags, the socket event handlers
(`connect`, `reconnect`, `disconnect`, `rate-limit-exceeded`, `error`),
the shutdown wait loop (`rl.on('close')`), the interrupt handler
(`process.on('SIGINT')`), and the session-identity helpers
(`generateSessionId`, `normalizeSessionId`).

Pure JavaScript functions become Lean functions; the event-driven
callbacks become a step function on an explicit state record, one step
per callback invocation (JavaScript is single threaded, so each handler
body runs atomically).  `JSON.parse` is an external built-in and is
abstracted as a parameter `parse : String → Option Json`; the
`try/catch` around it becomes the `Option` branch.
-/

namespace Vibex

/-- Parsed structured values produced by `JSON.parse`.  The CLI never
inspects a parsed value (it is forwarded opaquely as an event payload),
so the exact carrier shape is irrelevant to every theorem below. -/
inductive Json where
  | null : Json
  | bool (b : Bool) : Json
  | num (mantissa : Int) (exponent : Int) : Json
  | str (s : String) : Json
  | arr (xs : List Json) : Json
  | obj (fields : List (String × Json)) : Json
deriving Repr

/-- The payload of a decoded event: `type: 'json'` carries the parsed
value, `type: 'text'` carries the trimmed raw line (src/index.js
lines 583–597). -/
inductive Payload where
  | json (v : Json) : Payload
  | text (s : String) : Payload
deriving Repr

/-- One decoded log event, `{ type, payload, timestamp }`
(src/index.js lines 586–596).  The timestamp is `Date.now()` at decode
time, passed in explicitly. -/
structure Event where
  payload : Payload
  timestamp : Nat
deriving Repr

/-- Models JavaScript `String.prototype.trim` over ASCII whitespace:
drop whitespace characters from both ends of the string. -/
def jsTrim (s : String) : String :=
  String.mk (((s.data.dropWhile Char.isWhitespace).reverse.dropWhile
      Char.isWhitespace).reverse)

/-- The `rl.on('line')` decode logic (src/index.js lines 577–597):
trim the line; an empty trimmed line yields no event; otherwise try
`JSON.parse` — success yields a json-kind event with the parsed value,
failure (the catch branch) yields a text-kind event with the trimmed
line.  Total: no input raises. -/
def decodeLine (parse : String → Option Json) (line : String) (now : Nat) :
    Option Event :=
  let trimmedLine := jsTrim line
  if trimmedLine = "" then
    none
  else
    match parse trimmedLine with
    | some parsed => some { payload := Payload.json parsed, timestamp := now }
    | none => some { payload := Payload.text trimmedLine, timestamp := now }

/-- The session-id character alphabet
`'abcdefghijklmnopqrstuvwxyz0123456789'` (src/index.js line 38). -/
def sessionChars : List Char :=
  "abcdefghijklmnopqrstuvwxyz0123456789".data

/-- `chars[randomBytes[i] % chars.length]` for one random byte
(src/index.js line 44). -/
def sessionChar (b : Nat) : Char :=
  sessionChars.get ⟨b % sessionChars.length, Nat.mod_lt b (by decide)⟩

/-- `generateSessionId` (src/index.js lines 34–48): `'vibex-'` followed
by 12 characters indexed by the 12 random bytes (modelled as a function
from position to byte value). -/
def generateSessionId (randomBytes : Fin 12 → Nat) : String :=
  "vibex-" ++ String.mk ((List.finRange 12).map fun i => sessionChar (randomBytes i))

/-- Models JavaScript `String.prototype.startsWith 'vibex-'`
(src/index.js line 53). -/
def startsWithVibex (s : String) : Bool :=
  "vibex-".data.isPrefixOf s.data

/-- `normalizeSessionId` (src/index.js lines 50–57): falsy (empty)
input gives `null`; an input without the `'vibex-'` prefix gets the
prefix prepended; already-prefixed input is returned unchanged. -/
def normalizeSessionId (sessionId : String) : Option String :=
  if sessionId = "" then
    none
  else if startsWithVibex sessionId = false then
    some ("vibex-" ++ sessionId)
  else
    some sessionId

/-- A message emitted on the socket by the CLI: either the
`'join-session'` emit (src/index.js lines 431, 466) or a `'cli-emit'`
carrying one event (lines 438–441, 471–476, 601–604).  The `conn` field
is a ghost annotation — the value of the connection counter at emission
time — used only to state per-connection ordering properties; it is not
part of the wire message. -/
inductive Msg where
  | join (conn : Nat) (sessionId : String) : Msg
  | emit (conn : Nat) (sessionId : String) (event : Event) : Msg
deriving Repr

/-- The session id carried by a message. -/
def msgSessionId : Msg → String
  | Msg.join _ sid => sid
  | Msg.emit _ sid _ => sid

/-- The mutable state of the running CLI process (src/index.js
lines 417–425 plus the surrounding runtime): the three connection
flags (`isConnected`, `hasJoinedSession` declared at lines 417–418,
and the transport's own `socket.connected`), the delivery queue
(`logQueue`, line 419), the trace of messages emitted so far, the
session identity (set once in `main`, line 372), a ghost connection
counter incremented on each `connect`/`reconnect`, the number of
pending post-join settle timers (`setTimeout(..., 100)` at lines
433 and 467), and the process exit status (`process.exit`). -/
structure State where
  isConnected : Bool
  hasJoinedSession : Bool
  socketConnected : Bool
  joinPending : Nat
  logQueue : List Event
  sent : List Msg
  sessionId : String
  conn : Nat
  exited : Option Nat
deriving Repr

/-- The state at the start of `main` after the socket is created
(src/index.js lines 406–425): disconnected, not joined, empty queue. -/
def initState (sid : String) : State :=
  { isConnected := false
    hasJoinedSession := false
    socketConnected := false
    joinPending := 0
    logQueue := []
    sent := []
    sessionId := sid
    conn := 0
    exited := none }

/-- One callback invocation of the event loop.  Each constructor is one
registered handler of src/index.js: socket events (`connect`,
`session-auth-code`, `reconnect`, `reconnect_attempt`,
`reconnect_error`, `reconnect_failed`, `connect_error`, `disconnect`,
`rate-limit-exceeded`, `error`), the firing of a post-join settle
timer (`joinSettle`), one input line (`rl.on('line')`, with the
`Date.now()` value), and the interrupt signal (`process.on('SIGINT')`). -/
inductive Ev where
  | connect : Ev
  | sessionAuthCode : Ev
  | reconnect (attemptNumber : Nat) : Ev
  | reconnectAttempt (attemptNumber : Nat) : Ev
  | reconnectError : Ev
  | reconnectFailed : Ev
  | connectError : Ev
  | joinSettle : Ev
  | disconnect (reason : String) : Ev
  | rateLimitExceeded : Ev
  | serverError (err : Option String) : Ev
  | line (s : String) (now : Nat) : Ev
  | sigint : Ev
deriving Repr, DecidableEq

/-- One step of the single-threaded event loop: run the handler
registered for `e` on state `s`.  Each branch is the body of the
corresponding handler in src/index.js; a process that has already
called `process.exit` runs nothing further.

* `connect` (lines 427–444): set `isConnected`, emit
  `'join-session'`, schedule the 100 ms settle timer.  (The ghost
  connection counter is incremented here.)
* `reconnect` (lines 462–478): same body after a reconnection.
* `joinSettle` (lines 433–443 and 467–477, the timer callback): set
  `hasJoinedSession` and drain the whole queue in FIFO order with
  `while (logQueue.length > 0) { socket.emit('cli-emit', …shift()) }`;
  the loop body is synchronous, so the drain is one atomic step.
* `disconnect` (lines 501–508): clear both flags; the queue is
  untouched (both reason branches are empty).
* `rate-limit-exceeded` (lines 511–534): print a warning and clear
  the queue (`logQueue.length = 0`); nothing else changes.
* `error` (lines 537–569): if `data.error === 'History Limit Reached'`,
  clear the queue and clear `hasJoinedSession`; all other errors only
  print.
* `line` (lines 577–608): decode; if
  `isConnected && hasJoinedSession && socket.connected`, emit
  `'cli-emit'` immediately, else push onto the queue.
* `sigint` (lines 632–636): `socket.disconnect()` then
  `process.exit(0)`.
* the remaining socket events only print (lines 448–499). -/
def step (parse : String → Option Json) (s : State) (e : Ev) : State :=
  match s.exited with
  | some _ => s
  | none =>
    match e with
    | Ev.connect =>
        { s with isConnected := true
                 socketConnected := true
                 conn := s.conn + 1
                 sent := s.sent ++ [Msg.join (s.conn + 1) s.sessionId]
                 joinPending := s.joinPending + 1 }
    | Ev.reconnect _ =>
        { s with isConnected := true
                 socketConnected := true
                 conn := s.conn + 1
                 sent := s.sent ++ [Msg.join (s.conn + 1) s.sessionId]
                 joinPending := s.joinPending + 1 }
    | Ev.joinSettle =>
        if 0 < s.joinPending then
          { s with hasJoinedSession := true
                   joinPending := s.joinPending - 1
                   logQueue := []
                   sent := s.sent ++ s.logQueue.map (Msg.emit s.conn s.sessionId) }
        else s
    | Ev.disconnect _ =>
        { s with isConnected := false
                 hasJoinedSession := false
                 socketConnected := false }
    | Ev.rateLimitExceeded =>
        { s with logQueue := [] }
    | Ev.serverError err =>
        if err = some "History Limit Reached" then
          { s with logQueue := []
                   hasJoinedSession := false }
        else s
    | Ev.line str now =>
        match decodeLine parse str now with
        | none => s
        | some ev =>
            if (s.isConnected && s.hasJoinedSession && s.socketConnected) = true then
              { s with sent := s.sent ++ [Msg.emit s.conn s.sessionId ev] }
            else
              { s with logQueue := s.logQueue ++ [ev] }
    | Ev.sigint =>
        { s with socketConnected := false
                 exited := some 0 }
    | Ev.sessionAuthCode => s
    | Ev.reconnectAttempt _ => s
    | Ev.reconnectError => s
    | Ev.reconnectFailed => s
    | Ev.connectError => s

/-- Run a sequence of callback invocations from a state. -/
def run (parse : String → Option Json) (s : State) (evs : List Ev) : State :=
  evs.foldl (step parse) s

/-- Outcome of one iteration of the shutdown wait loop: either the
process exits with the given status (after closing the transport,
leaving the given state), or the loop schedules itself again after the
given delay in milliseconds. -/
inductive WaitOutcome where
  | exit (code : Nat) (final : State) : WaitOutcome
  | again (delayMs : Nat) : WaitOutcome
deriving Repr

/-- One poll iteration of `waitForQueue` in the `rl.on('close')`
handler (src/index.js lines 610–630): if the queue is empty or the
socket is disconnected with items still queued, take the first branch —
but inside it, a disconnected socket with a non-empty queue only
reschedules the poll after 200 ms; only an empty queue reaches the
exit path, which disconnects the socket and exits with status 0.
A non-empty queue on a live connection polls again after 100 ms. -/
def waitForQueue (s : State) : WaitOutcome :=
  if s.logQueue.length = 0 ∨ (s.isConnected = false ∧ 0 < s.logQueue.length) then
    if s.isConnected = false ∧ 0 < s.logQueue.length then
      WaitOutcome.again 200
    else
      WaitOutcome.exit 0 { s with socketConnected := false }
  else
    WaitOutcome.again 100

/-- The options literal passed to `io(socketUrl, …)`
(src/index.js lines 406–415). -/
structure SocketOptions where
  transports : List String
  autoConnect : Bool
  reconnection : Bool
  reconnectionDelay : Nat
  reconnectionDelayMax : Nat
  reconnectionAttemptsUnlimited : Bool
  timeout : Nat
deriving Repr

/-- The concrete options the CLI passes: reconnection on, initial delay
1000 ms, delay cap 5000 ms, `reconnectionAttempts: Infinity`
(modelled as the `reconnectionAttemptsUnlimited` flag), handshake
timeout 20000 ms. -/
def cliSocketOptions : SocketOptions :=
  { transports := ["websocket", "polling"]
    autoConnect := true
    reconnection := true
    reconnectionDelay := 1000
    reconnectionDelayMax := 5000
    reconnectionAttemptsUnlimited := true
    timeout := 20000 }

/-- Modelled from the socket.io client's documented behaviour (an
external dependency of this repository, not part of src/): after a
disconnect, the manager schedules automatic reconnection attempts
(with exponential backoff between `reconnectionDelay` and
`reconnectionDelayMax`) only when reconnection is enabled and the
disconnect was not deliberate; for the reasons `'io server disconnect'`
and `'io client disconnect'` the socket does not reconnect unless the
application calls `socket.connect()` explicitly. -/
def socketIoAutoReconnects (opts : SocketOptions) (reason : String) : Bool :=
  opts.reconnection &&
    !(reason == "io server disconnect" || reason == "io client disconnect")

/-- Whether the CLI's own `disconnect` handler (src/index.js
lines 501–508) calls `socket.connect()` for the given reason: it never
does — both branches of the handler only update flags. -/
def disconnectHandlerCallsConnect (_reason : String) : Bool :=
  false

/-- Whether any reconnection attempt happens after a disconnect with
the given reason: either the socket.io manager schedules one, or the
application requests one from its `disconnect` handler. -/
def reconnectionAttempted (reason : String) : Bool :=
  socketIoAutoReconnects cliSocketOptions reason ||
    disconnectHandlerCallsConnect reason

/-! ## Basic step lemmas -/

/-- After `process.exit` has run, no handler runs. -/
theorem step_of_exited (parse : String → Option Json) (s : State) (e : Ev)
    (n : Nat) (h : s.exited = some n) : step parse s e = s := by
  unfold step
  rw [h]

/-- Every handler only appends to the trace of emitted messages:
nothing already emitted is retracted or reordered. -/
theorem step_sent_append (parse : String → Option Json) (s : State) (e : Ev) :
    ∃ t, (step parse s e).sent = s.sent ++ t := by
  unfold step
  cases hx : s.exited with
  | some n => exact ⟨[], by simp⟩
  | none =>
    cases e with
    | connect => exact ⟨_, rfl⟩
    | reconnect n => exact ⟨_, rfl⟩
    | joinSettle =>
        by_cases hp : 0 < s.joinPending
        · simp only [if_pos hp]
          exact ⟨_, rfl⟩
        · simp only [if_neg hp]
          exact ⟨[], by simp⟩
    | disconnect r => exact ⟨[], by simp⟩
    | rateLimitExceeded => exact ⟨[], by simp⟩
    | serverError err =>
        by_cases he : err = some "History Limit Reached"
        · simp only [if_pos he]
          exact ⟨[], by simp⟩
        · simp only [if_neg he]
          exact ⟨[], by simp⟩
    | line str now =>
        cases hd : decodeLine parse str now with
        | none => simp only [hd]; exact ⟨[], by simp⟩
        | some ev =>
            simp only [hd]
            by_cases hc : (s.isConnected && s.hasJoinedSession && s.socketConnected) = true
            · simp only [if_pos hc]
              exact ⟨_, rfl⟩
            · simp only [if_neg hc]
              exact ⟨[], by simp⟩
    | sigint => exact ⟨[], by simp⟩
    | sessionAuthCode => exact ⟨[], by simp⟩
    | reconnectAttempt n => exact ⟨[], by simp⟩
    | reconnectError => exact ⟨[], by simp⟩
    | reconnectFailed => exact ⟨[], by simp⟩
    | connectError => exact ⟨[], by simp⟩

/-- Over any sequence of callbacks, the emitted-message trace only
grows at the end. -/
theorem run_sent_append (parse : String → Option Json) (evs : List Ev)
    (s : State) : ∃ t, (run parse s evs).sent = s.sent ++ t := by
  induction evs generalizing s with
  | nil => exact ⟨[], by simp [run]⟩
  | cons e evs ih =>
      obtain ⟨t₁, h₁⟩ := step_sent_append parse s e
      obtain ⟨t₂, h₂⟩ := ih (step parse s e)
      exact ⟨t₁ ++ t₂, by simp [run] at h₂ ⊢; rw [h₂, h₁, List.append_assoc]⟩

/-- No handler ever changes the session identity. -/
theorem step_sessionId (parse : String → Option Json) (s : State) (e : Ev) :
    (step parse s e).sessionId = s.sessionId := by
  unfold step
  cases hx : s.exited with
  | some n => rfl
  | none =>
    cases e with
    | joinSettle =>
        by_cases hp : 0 < s.joinPending
        · simp only [if_pos hp]
        · simp only [if_neg hp]
    | serverError err =>
        by_cases he : err = some "History Limit Reached"
        · simp only [if_pos he]
        · simp only [if_neg he]
    | line str now =>
        cases hd : decodeLine parse str now with
        | none => simp only [hd]
        | some ev =>
            simp only [hd]
            by_cases hc : (s.isConnected && s.hasJoinedSession && s.socketConnected) = true
            · simp only [if_pos hc]
            · simp only [if_neg hc]
    | _ => rfl

/-- The session identity is constant across any run. -/
theorem run_sessionId (parse : String → Option Json) (evs : List Ev)
    (s : State) : (run parse s evs).sessionId = s.sessionId := by
  induction evs generalizing s with
  | nil => rfl
  | cons e evs ih =>
      show (run parse (step parse s e) evs).sessionId = s.sessionId
      rw [ih, step_sessionId]

/-! ## Queue-effect lemmas -/

/-- Apart from the two server-refusal handlers (`rate-limit-exceeded`
and the history-limit branch of `error`) and the drain in the settle
timer, every handler only appends to the delivery queue. -/
theorem step_queue_append (parse : String → Option Json) (s : State) (e : Ev)
    (h1 : e ≠ Ev.rateLimitExceeded)
    (h2 : e ≠ Ev.serverError (some "History Limit Reached"))
    (h3 : e ≠ Ev.joinSettle) :
    ∃ t, (step parse s e).logQueue = s.logQueue ++ t := by
  unfold step
  cases hx : s.exited with
  | some n => exact ⟨[], by simp⟩
  | none =>
    cases e with
    | connect => exact ⟨[], by simp⟩
    | reconnect n => exact ⟨[], by simp⟩
    | joinSettle => exact absurd rfl h3
    | disconnect r => exact ⟨[], by simp⟩
    | rateLimitExceeded => exact absurd rfl h1
    | serverError err =>
        have he : ¬(err = some "History Limit Reached") := fun h => h2 (by rw [h])
        simp only [if_neg he]
        exact ⟨[], by simp⟩
    | line str now =>
        cases hd : decodeLine parse str now with
        | none => simp only [hd]; exact ⟨[], by simp⟩
        | some ev =>
            simp only [hd]
            by_cases hc : (s.isConnected && s.hasJoinedSession && s.socketConnected) = true
            · simp only [if_pos hc]
              exact ⟨[], by simp⟩
            · simp only [if_neg hc]
              exact ⟨_, rfl⟩
    | sigint => exact ⟨[], by simp⟩
    | sessionAuthCode => exact ⟨[], by simp⟩
    | reconnectAttempt n => exact ⟨[], by simp⟩
    | reconnectError => exact ⟨[], by simp⟩
    | reconnectFailed => exact ⟨[], by simp⟩
    | connectError => exact ⟨[], by simp⟩

/-- Every handler except the two server-refusal handlers either keeps
all queued events (only appending new ones at the tail), or removes
them by sending every one of them, in order, on the socket. -/
theorem step_queue_effect (parse : String → Option Json) (s : State) (e : Ev)
    (h1 : e ≠ Ev.rateLimitExceeded)
    (h2 : e ≠ Ev.serverError (some "History Limit Reached")) :
    (∃ t, (step parse s e).logQueue = s.logQueue ++ t) ∨
      ((step parse s e).logQueue = [] ∧
        (step parse s e).sent =
          s.sent ++ s.logQueue.map (Msg.emit s.conn s.sessionId)) := by
  by_cases h3 : e = Ev.joinSettle
  · subst h3
    cases hx : s.exited with
    | some n =>
        left
        exact ⟨[], by simp [step, hx]⟩
    | none =>
        by_cases hp : 0 < s.joinPending
        · right
          constructor
          · show (step parse s Ev.joinSettle).logQueue = []
            unfold step
            rw [hx]
            simp only [if_pos hp]
          · show (step parse s Ev.joinSettle).sent = _
            unfold step
            rw [hx]
            simp only [if_pos hp]
        · left
          refine ⟨[], ?_⟩
          unfold step
          rw [hx]
          simp only [if_neg hp]
          simp
  · exact Or.inl (step_queue_append parse s e h1 h2 h3)

/-- Over any sequence of callbacks containing no server-refusal signal
and no settle-timer firing, the delivery queue only grows at the tail:
every queued event survives, in its original position. -/
theorem run_queue_append (parse : String → Option Json) (evs : List Ev)
    (s : State)
    (h : ∀ e ∈ evs, e ≠ Ev.rateLimitExceeded ∧
      e ≠ Ev.serverError (some "History Limit Reached") ∧ e ≠ Ev.joinSettle) :
    ∃ t, (run parse s evs).logQueue = s.logQueue ++ t := by
  induction evs generalizing s with
  | nil => exact ⟨[], by simp [run]⟩
  | cons e evs ih =>
      obtain ⟨he1, he2, he3⟩ := h e (List.mem_cons_self e evs)
      obtain ⟨t₁, h₁⟩ := step_queue_append parse s e he1 he2 he3
      obtain ⟨t₂, h₂⟩ := ih (step parse s e) (fun e' he' => h e' (List.mem_cons_of_mem e he'))
      refine ⟨t₁ ++ t₂, ?_⟩
      show (run parse (step parse s e) evs).logQueue = _
      rw [h₂, h₁, List.append_assoc]

/-- On a settle-timer firing with a timer actually pending, the whole
queue is sent in FIFO order, in one atomic handler invocation, and the
queue is left empty. -/
theorem step_joinSettle_drains (parse : String → Option Json) (s : State)
    (hx : s.exited = none) (hp : 0 < s.joinPending) :
    (step parse s Ev.joinSettle).sent =
        s.sent ++ s.logQueue.map (Msg.emit s.conn s.sessionId) ∧
      (step parse s Ev.joinSettle).logQueue = [] ∧
      (step parse s Ev.joinSettle).hasJoinedSession = true := by
  unfold step
  rw [hx]
  simp only [if_pos hp]
  simp

/-! ## Suppression after the history-limit signal -/

/-- While `hasJoinedSession` is false, and no `connect`, `reconnect` or
settle-timer callback runs, nothing is sent: every decoded line is
queued, and the joined flag stays false. -/
theorem run_suppressed (parse : String → Option Json) (evs : List Ev)
    (s : State) (hj : s.hasJoinedSession = false)
    (h : ∀ e ∈ evs, e ≠ Ev.connect ∧ (∀ n, e ≠ Ev.reconnect n) ∧
      e ≠ Ev.joinSettle) :
    (run parse s evs).sent = s.sent ∧
      (run parse s evs).hasJoinedSession = false := by
  induction evs generalizing s with
  | nil => exact ⟨rfl, hj⟩
  | cons e evs ih =>
      obtain ⟨he1, he2, he3⟩ := h e (List.mem_cons_self e evs)
      have hstep : (step parse s e).sent = s.sent ∧
          (step parse s e).hasJoinedSession = false := by
        unfold step
        cases hx : s.exited with
        | some n => exact ⟨rfl, hj⟩
        | none =>
          cases e with
          | connect => exact absurd rfl he1
          | reconnect n => exact absurd rfl (he2 n)
          | joinSettle => exact absurd rfl he3
          | disconnect r => exact ⟨rfl, rfl⟩
          | rateLimitExceeded => exact ⟨rfl, hj⟩
          | serverError err =>
              by_cases he : err = some "History Limit Reached"
              · simp only [if_pos he]
                simp
              · simp only [if_neg he]
                simp [hj]
          | line str now =>
              cases hd : decodeLine parse str now with
              | none => simp only [hd]; simp [hj]
              | some ev =>
                  simp only [hd]
                  have hc : ¬((s.isConnected && s.hasJoinedSession && s.socketConnected) = true) := by
                    simp [hj]
                  simp only [if_neg hc]
                  simp [hj]
          | sigint => exact ⟨rfl, hj⟩
          | sessionAuthCode => exact ⟨rfl, hj⟩
          | reconnectAttempt n => exact ⟨rfl, hj⟩
          | reconnectError => exact ⟨rfl, hj⟩
          | reconnectFailed => exact ⟨rfl, hj⟩
          | connectError => exact ⟨rfl, hj⟩
      obtain ⟨hrest1, hrest2⟩ := ih (step parse s e) hstep.2
        (fun e' he' => h e' (List.mem_cons_of_mem e he'))
      exact ⟨by rw [show run parse s (e :: evs) = run parse (step parse s e) evs from rfl,
        hrest1, hstep.1], hrest2⟩

/-! ## Join-before-emit ordering -/

/-- In a message trace, every `'cli-emit'` sent on connection `c` for
session `sid` is preceded by the `'join-session'` emit of that same
connection and session. -/
def joinBeforeEmits (ms : List Msg) : Prop :=
  ∀ (i c : Nat) (sid : String) (ev : Event),
    ms[i]? = some (Msg.emit c sid ev) →
      ∃ j, j < i ∧ ms[j]? = some (Msg.join c sid)

theorem joinBeforeEmits_nil : joinBeforeEmits [] := by
  intro i c sid ev h
  simp at h

/-- Appending a join message preserves the ordering property. -/
theorem joinBeforeEmits_append_join (ms : List Msg) (c : Nat) (sid : String)
    (h : joinBeforeEmits ms) : joinBeforeEmits (ms ++ [Msg.join c sid]) := by
  intro i c' sid' ev hi
  by_cases hlen : i < ms.length
  · rw [List.getElem?_append_left hlen] at hi
    obtain ⟨j, hj, hjoin⟩ := h i c' sid' ev hi
    have hjlen : j < ms.length := lt_trans hj hlen
    exact ⟨j, hj, by rw [List.getElem?_append_left hjlen]; exact hjoin⟩
  · rw [List.getElem?_append_right (le_of_not_lt hlen)] at hi
    cases hk : i - ms.length with
    | zero => rw [hk] at hi; simp at hi
    | succ k => rw [hk] at hi; simp at hi

/-- Appending any block of emit messages for a connection whose join is
already in the trace preserves the ordering property. -/
theorem joinBeforeEmits_append_emits (ms : List Msg) (c : Nat) (sid : String)
    (l : List Event) (h : joinBeforeEmits ms)
    (hjoin : Msg.join c sid ∈ ms) :
    joinBeforeEmits (ms ++ l.map (Msg.emit c sid)) := by
  intro i c' sid' ev hi
  by_cases hlen : i < ms.length
  · rw [List.getElem?_append_left hlen] at hi
    obtain ⟨j, hj, hj2⟩ := h i c' sid' ev hi
    have hjlen : j < ms.length := lt_trans hj hlen
    exact ⟨j, hj, by rw [List.getElem?_append_left hjlen]; exact hj2⟩
  · rw [List.getElem?_append_right (le_of_not_lt hlen), List.getElem?_map] at hi
    cases hl : (l[i - ms.length]?) with
    | none => rw [hl] at hi; simp at hi
    | some e0 =>
        rw [hl] at hi
        simp [Msg.emit.injEq] at hi
        obtain ⟨hc, hsid, _⟩ := hi
        obtain ⟨j, hjeq⟩ := List.getElem?_of_mem hjoin
        have hjlen : j < ms.length := (List.getElem?_eq_some_iff.mp hjeq).1
        refine ⟨j, lt_of_lt_of_le hjlen (le_of_not_lt hlen), ?_⟩
        rw [List.getElem?_append_left hjlen, hjeq, hc, hsid]

/-- The run invariant behind the join-before-emit property: the trace
satisfies the ordering, and whenever a settle timer is pending or the
joined flag is set, the join message of the current connection has
already been emitted. -/
def JoinInv (s : State) : Prop :=
  joinBeforeEmits s.sent ∧
    ((0 < s.joinPending ∨ s.hasJoinedSession = true) →
      Msg.join s.conn s.sessionId ∈ s.sent)

/-- Every handler preserves the join-before-emit invariant. -/
theorem step_joinInv (parse : String → Option Json) (s : State) (e : Ev)
    (h : JoinInv s) : JoinInv (step parse s e) := by
  obtain ⟨h1, h2⟩ := h
  unfold step
  cases hx : s.exited with
  | some n => exact ⟨h1, h2⟩
  | none =>
    cases e with
    | connect =>
        refine ⟨joinBeforeEmits_append_join _ _ _ h1, fun _ => ?_⟩
        simp
    | reconnect n =>
        refine ⟨joinBeforeEmits_append_join _ _ _ h1, fun _ => ?_⟩
        simp
    | joinSettle =>
        by_cases hp : 0 < s.joinPending
        · simp only [if_pos hp]
          have hmem : Msg.join s.conn s.sessionId ∈ s.sent := h2 (Or.inl hp)
          exact ⟨joinBeforeEmits_append_emits _ _ _ _ h1 hmem,
            fun _ => List.mem_append_left _ hmem⟩
        · simp only [if_neg hp]
          exact ⟨h1, h2⟩
    | disconnect r =>
        refine ⟨h1, fun hcond => h2 ?_⟩
        rcases hcond with hp | hfalse
        · exact Or.inl hp
        · exact absurd hfalse (by simp)
    | rateLimitExceeded => exact ⟨h1, h2⟩
    | serverError err =>
        by_cases he : err = some "History Limit Reached"
        · simp only [if_pos he]
          refine ⟨h1, fun hcond => h2 ?_⟩
          rcases hcond with hp | hfalse
          · exact Or.inl hp
          · exact absurd hfalse (by simp)
        · simp only [if_neg he]
          exact ⟨h1, h2⟩
    | line str now =>
        cases hd : decodeLine parse str now with
        | none => simp only [hd]; exact ⟨h1, h2⟩
        | some ev =>
            simp only [hd]
            by_cases hc : (s.isConnected && s.hasJoinedSession && s.socketConnected) = true
            · simp only [if_pos hc]
              have hjoined : s.hasJoinedSession = true := by
                simp only [Bool.and_eq_true] at hc
                exact hc.1.2
              have hmem := h2 (Or.inr hjoined)
              refine ⟨?_, fun _ => List.mem_append_left _ hmem⟩
              have := joinBeforeEmits_append_emits s.sent s.conn s.sessionId
                [ev] h1 hmem
              simpa using this
            · simp only [if_neg hc]
              exact ⟨h1, h2⟩
    | sigint => exact ⟨h1, h2⟩
    | sessionAuthCode => exact ⟨h1, h2⟩
    | reconnectAttempt n => exact ⟨h1, h2⟩
    | reconnectError => exact ⟨h1, h2⟩
    | reconnectFailed => exact ⟨h1, h2⟩
    | connectError => exact ⟨h1, h2⟩

/-- The invariant holds along any run from an invariant state. -/
theorem run_joinInv (parse : String → Option Json) (evs : List Ev)
    (s : State) (h : JoinInv s) : JoinInv (run parse s evs) := by
  induction evs generalizing s with
  | nil => exact h
  | cons e evs ih => exact ih (step parse s e) (step_joinInv parse s e h)

/-- The invariant holds in the initial state. -/
theorem joinInv_init (sid : String) : JoinInv (initState sid) := by
  refine ⟨joinBeforeEmits_nil, fun hcond => ?_⟩
  rcases hcond with hp | hfalse
  · exact absurd hp (by simp [initState])
  · exact absurd hfalse (by simp [initState])

/-! ## Session identity lemmas -/

/-- A list is a `isPrefixOf` itself extended by anything. -/
theorem isPrefixOf_self_append (l t : List Char) :
    l.isPrefixOf (l ++ t) = true := by
  induction l with
  | nil => simp [List.isPrefixOf]
  | cons a l ih => simp [List.isPrefixOf, ih]

/-- Every handler appends only messages carrying the current session
identity. -/
theorem step_sent_append_sid (parse : String → Option Json) (s : State)
    (e : Ev) :
    ∃ t, (step parse s e).sent = s.sent ++ t ∧
      ∀ m ∈ t, msgSessionId m = s.sessionId := by
  unfold step
  cases hx : s.exited with
  | some n => exact ⟨[], by simp, by simp⟩
  | none =>
    cases e with
    | connect =>
        refine ⟨[Msg.join (s.conn + 1) s.sessionId], rfl, ?_⟩
        intro m hm
        rw [List.mem_singleton.mp hm]
        rfl
    | reconnect n =>
        refine ⟨[Msg.join (s.conn + 1) s.sessionId], rfl, ?_⟩
        intro m hm
        rw [List.mem_singleton.mp hm]
        rfl
    | joinSettle =>
        by_cases hp : 0 < s.joinPending
        · simp only [if_pos hp]
          refine ⟨s.logQueue.map (Msg.emit s.conn s.sessionId), rfl, ?_⟩
          intro m hm
          obtain ⟨x, _, rfl⟩ := List.mem_map.mp hm
          rfl
        · simp only [if_neg hp]
          exact ⟨[], by simp, by simp⟩
    | disconnect r => exact ⟨[], by simp, by simp⟩
    | rateLimitExceeded => exact ⟨[], by simp, by simp⟩
    | serverError err =>
        by_cases he : err = some "History Limit Reached"
        · simp only [if_pos he]
          exact ⟨[], by simp, by simp⟩
        · simp only [if_neg he]
          exact ⟨[], by simp, by simp⟩
    | line str now =>
        cases hd : decodeLine parse str now with
        | none => simp only [hd]; exact ⟨[], by simp, by simp⟩
        | some ev =>
            simp only [hd]
            by_cases hc : (s.isConnected && s.hasJoinedSession && s.socketConnected) = true
            · simp only [if_pos hc]
              refine ⟨[Msg.emit s.conn s.sessionId ev], rfl, ?_⟩
              intro m hm
              rw [List.mem_singleton.mp hm]
              rfl
            · simp only [if_neg hc]
              exact ⟨[], by simp, by simp⟩
    | sigint => exact ⟨[], by simp, by simp⟩
    | sessionAuthCode => exact ⟨[], by simp, by simp⟩
    | reconnectAttempt n => exact ⟨[], by simp, by simp⟩
    | reconnectError => exact ⟨[], by simp, by simp⟩
    | reconnectFailed => exact ⟨[], by simp, by simp⟩
    | connectError => exact ⟨[], by simp, by simp⟩

/-- Along any run, every emitted message carries the (immutable)
session identity of the starting state. -/
theorem run_sent_sid (parse : String → Option Json) (evs : List Ev)
    (s : State) (h : ∀ m ∈ s.sent, msgSessionId m = s.sessionId) :
    ∀ m ∈ (run parse s evs).sent, msgSessionId m = s.sessionId := by
  induction evs generalizing s with
  | nil => exact h
  | cons e evs ih =>
      obtain ⟨t, ht, hts⟩ := step_sent_append_sid parse s e
      have hsid := step_sessionId parse s e
      have h' : ∀ m ∈ (step parse s e).sent,
          msgSessionId m = (step parse s e).sessionId := by
        rw [ht, hsid]
        intro m hm
        rcases List.mem_append.mp hm with h1 | h2
        · exact h m h1
        · exact hts m h2
      intro m hm
      have hres := ih (step parse s e) h' m hm
      rw [hres, hsid]

/-! ## Claim theorems

One theorem per claim of the specification, each stated over the
definitions above, with a closed witness instantiation wherever the
theorem carries hypotheses. -/

/-- A degenerate stand-in for `JSON.parse` used only in concrete
witness evaluations: a parser for which every line fails to parse. -/
def failParse : String → Option Json :=
  fun _ => none

/-- Sample decoded events used in concrete witness states. -/
def evA : Event :=
  { payload := Payload.text "alpha", timestamp := 1 }

/-- A second sample event. -/
def evB : Event :=
  { payload := Payload.text "beta", timestamp := 2 }

/-- C1: every input line is trimmed of surrounding whitespace; an empty
trimmed line produces no event; if the structured parse of the trimmed
line succeeds the decoder produces a json-kind event whose payload is
the parsed value; if it fails, a text-kind event whose payload is the
trimmed line verbatim; and the decoder is total (it returns an
`Option Event` for every input — parse failure is a normal branch, not
an exception). -/
theorem c1_decoder_contract (parse : String → Option Json) (line : String)
    (now : Nat) :
    (jsTrim line = "" → decodeLine parse line now = none) ∧
    (∀ v, jsTrim line ≠ "" → parse (jsTrim line) = some v →
      decodeLine parse line now =
        some { payload := Payload.json v, timestamp := now }) ∧
    (jsTrim line ≠ "" → parse (jsTrim line) = none →
      decodeLine parse line now =
        some { payload := Payload.text (jsTrim line), timestamp := now }) ∧
    (decodeLine parse line now = none ∨
      ∃ ev, decodeLine parse line now = some ev) := by
  refine ⟨?_, ?_, ?_, ?_⟩
  · intro h
    unfold decodeLine
    rw [if_pos h]
  · intro v hne hv
    unfold decodeLine
    rw [if_neg hne, hv]
  · intro hne hv
    unfold decodeLine
    rw [if_neg hne, hv]
  · cases h : decodeLine parse line now with
    | none => exact Or.inl rfl
    | some ev => exact Or.inr ⟨ev, rfl⟩

/-- Witness for C1 at concrete inputs: a whitespace-padded non-JSON
line decodes to a text event carrying the trimmed line; a JSON line
decodes to a json event carrying the parsed value. -/
theorem c1_decoder_contract_witness :
    jsTrim "  hello  " ≠ "" ∧
    decodeLine failParse "  hello  " 7 =
      some { payload := Payload.text (jsTrim "  hello  "), timestamp := 7 } ∧
    decodeLine (fun _ => some Json.null) "null" 9 =
      some { payload := Payload.json Json.null, timestamp := 9 } ∧
    jsTrim "   " = "" ∧
    decodeLine failParse "   " 3 = none := by
  refine ⟨by decide, ?_, ?_, by decide, ?_⟩
  · exact (c1_decoder_contract failParse "  hello  " 7).2.2.1 (by decide) rfl
  · exact (c1_decoder_contract (fun _ => some Json.null) "null" 9).2.1
      Json.null (by decide) rfl
  · exact (c1_decoder_contract failParse "   " 3).1 (by decide)

/-- C2: queued events are dequeued and emitted in exactly the order
they were enqueued, and on every transition into Joined (a settle-timer
firing with a timer pending) the entire queue is emitted, in one atomic
handler invocation, before anything a later callback emits: whatever
else happens afterwards, the trace extends
`sent ++ queue.map emit` only on the right, so no newly arriving line
can be sent ahead of (or interleaved with) the drained events. -/
theorem c2_fifo_drain (parse : String → Option Json) (s : State)
    (evs : List Ev) (hx : s.exited = none) (hp : 0 < s.joinPending) :
    (step parse s Ev.joinSettle).logQueue = [] ∧
    (step parse s Ev.joinSettle).sent =
      s.sent ++ s.logQueue.map (Msg.emit s.conn s.sessionId) ∧
    ∃ rest, (run parse (step parse s Ev.joinSettle) evs).sent =
      s.sent ++ s.logQueue.map (Msg.emit s.conn s.sessionId) ++ rest := by
  obtain ⟨hs, hq, _⟩ := step_joinSettle_drains parse s hx hp
  refine ⟨hq, hs, ?_⟩
  obtain ⟨t, ht⟩ := run_sent_append parse evs (step parse s Ev.joinSettle)
  exact ⟨t, by rw [ht, hs]⟩

/-- Witness for C2: a state with two queued events and a pending settle
timer; the settle firing emits both, in order, and a line arriving
afterwards is emitted strictly after both. -/
def c2State : State :=
  { isConnected := true
    hasJoinedSession := false
    socketConnected := true
    joinPending := 1
    logQueue := [evA, evB]
    sent := [Msg.join 1 "vibex-w"]
    sessionId := "vibex-w"
    conn := 1
    exited := none }

/-- Witness theorem for C2 at the concrete state `c2State`. -/
theorem c2_fifo_drain_witness :
    c2State.exited = none ∧ 0 < c2State.joinPending ∧
    ((step failParse c2State Ev.joinSettle).logQueue = [] ∧
      (step failParse c2State Ev.joinSettle).sent =
        c2State.sent ++ c2State.logQueue.map (Msg.emit c2State.conn c2State.sessionId) ∧
      ∃ rest, (run failParse (step failParse c2State Ev.joinSettle)
          [Ev.line "tail" 9]).sent =
        c2State.sent ++ c2State.logQueue.map (Msg.emit c2State.conn c2State.sessionId)
          ++ rest) :=
  ⟨rfl, by decide, c2_fifo_drain failParse c2State [Ev.line "tail" 9] rfl (by decide)⟩

/-- C3: a transport disconnect, for any reason string, changes only the
three connection-state flags and never the delivery queue or the
emitted trace; moreover no handler other than the rate-limit handler
and the history-limit branch of the error handler ever removes queued
events without sending them — each handler either keeps the queue as a
prefix (appending at most new events) or drains it entirely onto the
socket in order; hence across any stretch of callbacks free of those
two server-refusal signals (and of drains), every queued event is still
in the queue, in order, ready for the next join. -/
theorem c3_disconnect_preserves_queue (parse : String → Option Json)
    (s : State) :
    (∀ reason, s.exited = none →
      step parse s (Ev.disconnect reason) =
        { s with isConnected := false
                 hasJoinedSession := false
                 socketConnected := false }) ∧
    (∀ e, e ≠ Ev.rateLimitExceeded →
      e ≠ Ev.serverError (some "History Limit Reached") →
      (∃ t, (step parse s e).logQueue = s.logQueue ++ t) ∨
        ((step parse s e).logQueue = [] ∧
          (step parse s e).sent =
            s.sent ++ s.logQueue.map (Msg.emit s.conn s.sessionId))) ∧
    (∀ evs, (∀ e ∈ evs, e ≠ Ev.rateLimitExceeded ∧
        e ≠ Ev.serverError (some "History Limit Reached") ∧
        e ≠ Ev.joinSettle) →
      ∃ t, (run parse s evs).logQueue = s.logQueue ++ t) := by
  refine ⟨?_, ?_, ?_⟩
  · intro reason hx
    unfold step
    rw [hx]
  · intro e h1 h2
    exact step_queue_effect parse s e h1 h2
  · intro evs h
    exact run_queue_append parse evs s h

/-- Witness state for C3: connected and joined with one queued event. -/
def c3State : State :=
  { isConnected := true
    hasJoinedSession := true
    socketConnected := true
    joinPending := 0
    logQueue := [evA]
    sent := [Msg.join 1 "vibex-w"]
    sessionId := "vibex-w"
    conn := 1
    exited := none }

/-- Witness theorem for C3: a `'transport close'` disconnect at the
concrete state flips only the flags, and a disconnect followed by two
lines leaves the original queued event at the head of the queue. -/
theorem c3_disconnect_preserves_queue_witness :
    step failParse c3State (Ev.disconnect "transport close") =
      { c3State with
          isConnected := false
          hasJoinedSession := false
          socketConnected := false } ∧
    (∃ t, (step failParse c3State (Ev.disconnect "transport close")).logQueue =
        c3State.logQueue ++ t ∨
      ((step failParse c3State (Ev.disconnect "transport close")).logQueue = [] ∧
        (step failParse c3State (Ev.disconnect "transport close")).sent =
          c3State.sent ++ c3State.logQueue.map
            (Msg.emit c3State.conn c3State.sessionId))) ∧
    (∃ t, (run failParse c3State
        [Ev.disconnect "transport close", Ev.line "while-down" 5]).logQueue =
      c3State.logQueue ++ t) := by
  refine ⟨(c3_disconnect_preserves_queue failParse c3State).1 "transport close" rfl,
    ?_, ?_⟩
  · rcases (c3_disconnect_preserves_queue failParse c3State).2.1
      (Ev.disconnect "transport close") (by decide) (by decide) with ⟨t, ht⟩ | hdr
    · exact ⟨t, Or.inl ht⟩
    · exact ⟨[], Or.inr hdr⟩
  · exact (c3_disconnect_preserves_queue failParse c3State).2.2
      [Ev.disconnect "transport close", Ev.line "while-down" 5]
      (by intro e he; fin_cases he <;> simp)

/-- C4: the history-limit signal (`error` with
`error: 'History Limit Reached'`) empties the delivery queue and clears
the joined flag, so every subsequent input line is decoded but only
enqueued — never sent immediately — and in fact nothing at all is sent
until a new connect/join cycle (a `connect`/`reconnect` followed by its
settle timer) runs again. -/
theorem c4_history_limit_suppresses (parse : String → Option Json)
    (s s' : State) (hx : s.exited = none)
    (hs' : s' = step parse s (Ev.serverError (some "History Limit Reached"))) :
    s'.logQueue = [] ∧
    s'.hasJoinedSession = false ∧
    (∀ str t ev, decodeLine parse str t = some ev →
      (step parse s' (Ev.line str t)).sent = s'.sent ∧
      (step parse s' (Ev.line str t)).logQueue = [ev]) ∧
    (∀ evs, (∀ e ∈ evs, e ≠ Ev.connect ∧ (∀ n, e ≠ Ev.reconnect n) ∧
        e ≠ Ev.joinSettle) →
      (run parse s' evs).sent = s'.sent) := by
  have hstep : s' = { s with logQueue := [], hasJoinedSession := false } := by
    rw [hs']
    unfold step
    rw [hx]
    simp
  have hq : s'.logQueue = [] := by rw [hstep]
  have hj : s'.hasJoinedSession = false := by rw [hstep]
  have hx' : s'.exited = none := by rw [hstep]; exact hx
  refine ⟨hq, hj, ?_, ?_⟩
  · intro str t ev hd
    have hcond : ¬((s'.isConnected && s'.hasJoinedSession && s'.socketConnected) = true) := by
      simp [hj]
    constructor
    · unfold step
      rw [hx']
      simp only [hd]
      rw [if_neg hcond]
    · unfold step
      rw [hx']
      simp only [hd]
      rw [if_neg hcond]
      simp [hq]
  · intro evs h
    exact (run_suppressed parse evs s' hj h).1

/-- Witness state for C4: joined, connected, two queued events, no
pending settle timer. -/
def c4State : State :=
  { isConnected := true
    hasJoinedSession := true
    socketConnected := true
    joinPending := 0
    logQueue := [evA, evB]
    sent := [Msg.join 1 "vibex-w"]
    sessionId := "vibex-w"
    conn := 1
    exited := none }

/-- Witness theorem for C4 at `c4State`: the history-limit signal
clears the queue and the joined flag; a following line is enqueued and
not sent; a disconnect followed by a line still sends nothing. -/
theorem c4_history_limit_suppresses_witness :
    (step failParse c4State (Ev.serverError (some "History Limit Reached"))).logQueue = [] ∧
    (step failParse c4State (Ev.serverError (some "History Limit Reached"))).hasJoinedSession = false ∧
    ((step failParse
        (step failParse c4State (Ev.serverError (some "History Limit Reached")))
        (Ev.line "suppressed" 4)).sent =
      (step failParse c4State (Ev.serverError (some "History Limit Reached"))).sent ∧
      (step failParse
        (step failParse c4State (Ev.serverError (some "History Limit Reached")))
        (Ev.line "suppressed" 4)).logQueue =
        [{ payload := Payload.text "suppressed", timestamp := 4 }]) ∧
    (run failParse
        (step failParse c4State (Ev.serverError (some "History Limit Reached")))
        [Ev.disconnect "transport close", Ev.line "still-suppressed" 6]).sent =
      (step failParse c4State (Ev.serverError (some "History Limit Reached"))).sent := by
  obtain ⟨h1, h2, h3, h4⟩ := c4_history_limit_suppresses failParse c4State
    (step failParse c4State (Ev.serverError (some "History Limit Reached")))
    rfl rfl
  exact ⟨h1, h2, h3 "suppressed" 4
      { payload := Payload.text "suppressed", timestamp := 4 } rfl,
    h4 [Ev.disconnect "transport close", Ev.line "still-suppressed" 6]
      (by intro e he; fin_cases he <;> simp)⟩

/-- Counterexample for C5 as stated: start from a joined, connected
state with a queued event; after the `rate-limit-exceeded` handler
runs, the connection is still treated as Joined
(`hasJoinedSession` remains `true`) and a line arriving afterwards IS
sent immediately on the current join cycle — the handler clears the
queue but does not stop delivery. -/
def c5State : State :=
  { isConnected := true
    hasJoinedSession := true
    socketConnected := true
    joinPending := 0
    logQueue := [evA]
    sent := [Msg.join 1 "vibex-w"]
    sessionId := "vibex-w"
    conn := 1
    exited := none }

/-- The counterexample theorem for C5: the claim's consequence fails at
`c5State` — delivery is not suppressed after `rate-limit-exceeded`. -/
theorem c5_rate_limit_counterexample :
    (step failParse c5State Ev.rateLimitExceeded).logQueue = [] ∧
    (step failParse c5State Ev.rateLimitExceeded).hasJoinedSession = true ∧
    (step failParse (step failParse c5State Ev.rateLimitExceeded)
        (Ev.line "next" 3)).sent =
      (step failParse c5State Ev.rateLimitExceeded).sent ++
        [Msg.emit 1 "vibex-w" { payload := Payload.text "next", timestamp := 3 }] := by
  exact ⟨rfl, rfl, rfl⟩

/-- C5 (amended): receiving `rate-limit-exceeded` clears the delivery
queue — the queued events are discarded unsent — but changes nothing
else: the joined flag is untouched, so lines arriving after the signal
on the current join cycle are still sent immediately. -/
theorem c5_rate_limit_amended (parse : String → Option Json) (s : State)
    (hx : s.exited = none) :
    step parse s Ev.rateLimitExceeded = { s with logQueue := [] } := by
  unfold step
  rw [hx]

/-- Witness theorem for the amended C5 at `c5State`. -/
theorem c5_rate_limit_amended_witness :
    c5State.exited = none ∧
    step failParse c5State Ev.rateLimitExceeded = { c5State with logQueue := [] } :=
  ⟨rfl, c5_rate_limit_amended failParse c5State rfl⟩

/-- C6: on every transition into Connected (`connect` and every
`reconnect`), the handler emits the join message carrying the session
identity and only schedules the settle timer — the queue is untouched,
so draining begins only when the settle timer fires (which then marks
the session joined and drains); and globally, along any run from the
initial state, every event emitted on a connection is preceded in the
trace by the join message of that same connection (no queued event is
ever transmitted before the current connection's join). -/
theorem c6_join_before_any_emit (parse : String → Option Json)
    (sid : String) (evs : List Ev) (s : State) :
    joinBeforeEmits (run parse (initState sid) evs).sent ∧
    (s.exited = none →
      (step parse s Ev.connect).sent =
        s.sent ++ [Msg.join (s.conn + 1) s.sessionId] ∧
      (step parse s Ev.connect).logQueue = s.logQueue ∧
      (step parse s Ev.connect).joinPending = s.joinPending + 1 ∧
      (∀ n, (step parse s (Ev.reconnect n)).sent =
          s.sent ++ [Msg.join (s.conn + 1) s.sessionId] ∧
        (step parse s (Ev.reconnect n)).logQueue = s.logQueue ∧
        (step parse s (Ev.reconnect n)).joinPending = s.joinPending + 1) ∧
      (0 < s.joinPending →
        (step parse s Ev.joinSettle).hasJoinedSession = true ∧
        (step parse s Ev.joinSettle).logQueue = [])) := by
  constructor
  · exact (run_joinInv parse evs (initState sid) (joinInv_init sid)).1
  · intro hx
    refine ⟨?_, ?_, ?_, ?_, ?_⟩
    · unfold step; rw [hx]
    · unfold step; rw [hx]
    · unfold step; rw [hx]
    · intro n
      refine ⟨?_, ?_, ?_⟩ <;> (unfold step; rw [hx])
    · intro hp
      obtain ⟨_, hq, hj⟩ := step_joinSettle_drains parse s hx hp
      exact ⟨hj, hq⟩

/-- Witness theorem for C6: the global ordering property at a concrete
run (connect, one line queued before the settle, settle, another line),
and the per-connect equations at the concrete state `c2State`. -/
theorem c6_join_before_any_emit_witness :
    joinBeforeEmits (run failParse (initState "vibex-w")
      [Ev.connect, Ev.line "early" 1, Ev.joinSettle, Ev.line "late" 2]).sent ∧
    (step failParse c2State Ev.connect).sent =
      c2State.sent ++ [Msg.join (c2State.conn + 1) c2State.sessionId] ∧
    (step failParse c2State Ev.connect).logQueue = c2State.logQueue := by
  have h := c6_join_before_any_emit failParse "vibex-w"
    [Ev.connect, Ev.line "early" 1, Ev.joinSettle, Ev.line "late" 2] c2State
  exact ⟨h.1, (h.2 rfl).1, (h.2 rfl).2.1⟩

/-- Counterexample for C7 as stated: at a state where the connection is
down (`isConnected = false`) and events are still queued, the shutdown
wait loop does NOT terminate-and-forfeit: the poll returns "try again
in 200 ms" and never reaches the exit branch. -/
def c7State : State :=
  { isConnected := false
    hasJoinedSession := false
    socketConnected := false
    joinPending := 0
    logQueue := [evA]
    sent := []
    sessionId := "vibex-w"
    conn := 1
    exited := none }

/-- The counterexample theorem for C7: a dead connection with a
non-empty queue keeps polling instead of forfeiting and exiting. -/
theorem c7_shutdown_wait_counterexample :
    c7State.isConnected = false ∧
    c7State.logQueue ≠ [] ∧
    waitForQueue c7State = WaitOutcome.again 200 ∧
    ∀ code final, waitForQueue c7State ≠ WaitOutcome.exit code final := by
  refine ⟨rfl, by simp [c7State, evA], rfl, ?_⟩
  intro code final h
  rw [show waitForQueue c7State = WaitOutcome.again 200 from rfl] at h
  exact WaitOutcome.noConfusion h

/-- C7 (amended): after end of input, one poll of the shutdown wait
loop exits — closing the transport, with success status 0 — exactly
when the delivery queue is empty; with items still queued it always
polls again (after 200 ms when the connection is down, waiting for a
reconnect to drain the queue rather than forfeiting, and after 100 ms
when the connection is up). -/
theorem c7_shutdown_wait_amended (s : State) :
    waitForQueue s =
      if s.logQueue.isEmpty then
        WaitOutcome.exit 0 { s with socketConnected := false }
      else if s.isConnected = true then
        WaitOutcome.again 100
      else
        WaitOutcome.again 200 := by
  unfold waitForQueue
  cases hql : s.logQueue with
  | nil => simp [hql]
  | cons a l =>
      cases hc : s.isConnected with
      | false => simp [hql, hc]
      | true => simp [hql, hc]

/-- C8: on an interrupt signal the transport is closed and the process
exits with status 0 immediately — in the very same handler invocation,
for every state, no matter how many events are still queued (the queue
is left undrained and nothing more is sent). -/
theorem c8_sigint_immediate (parse : String → Option Json) (s : State)
    (hx : s.exited = none) :
    step parse s Ev.sigint =
      { s with socketConnected := false, exited := some 0 } ∧
    (step parse s Ev.sigint).exited = some 0 ∧
    (step parse s Ev.sigint).logQueue = s.logQueue ∧
    (step parse s Ev.sigint).sent = s.sent := by
  have h : step parse s Ev.sigint =
      { s with socketConnected := false, exited := some 0 } := by
    unfold step
    rw [hx]
  exact ⟨h, by rw [h], by rw [h], by rw [h]⟩

/-- Witness theorem for C8 at a concrete state with two queued events:
the interrupt exits with status 0 leaving both events unsent. -/
theorem c8_sigint_immediate_witness :
    step failParse c4State Ev.sigint =
      { c4State with socketConnected := false, exited := some 0 } ∧
    (step failParse c4State Ev.sigint).exited = some 0 ∧
    (step failParse c4State Ev.sigint).logQueue = [evA, evB] :=
  ⟨(c8_sigint_immediate failParse c4State rfl).1,
    (c8_sigint_immediate failParse c4State rfl).2.1,
    (c8_sigint_immediate failParse c4State rfl).2.2.1⟩

/-- C9: session-identity normalization and immutability.  (1) For every
non-empty input string, `normalizeSessionId` yields a value starting
with `'vibex-'` and is idempotent on its own output.  (2) Every freshly
generated identity is `'vibex-'` followed by exactly 12 characters
drawn from the lowercase a–z / 0–9 alphabet, whatever the random bytes
were.  (3) Along any run, the state's session identity never changes
and every join and emit message in the trace carries exactly that
identity. -/
theorem c9_session_identity :
    (∀ s : String, s ≠ "" →
      ∃ t, normalizeSessionId s = some t ∧ startsWithVibex t = true ∧
        normalizeSessionId t = some t) ∧
    (∀ randomBytes : Fin 12 → Nat, ∃ suffix : List Char,
      (generateSessionId randomBytes).data = "vibex-".data ++ suffix ∧
      suffix.length = 12 ∧ ∀ c ∈ suffix, c ∈ sessionChars) ∧
    (∀ (parse : String → Option Json) (sid : String) (evs : List Ev),
      (run parse (initState sid) evs).sessionId = sid ∧
      ∀ m ∈ (run parse (initState sid) evs).sent, msgSessionId m = sid) := by
  refine ⟨?_, ?_, ?_⟩
  · intro s hs
    by_cases hp : startsWithVibex s = true
    · refine ⟨s, ?_, hp, ?_⟩ <;>
        (unfold normalizeSessionId;
          rw [if_neg hs, if_neg (by rw [hp]; exact fun h => Bool.noConfusion h)])
    · have hp' : startsWithVibex s = false := by
        cases hv : startsWithVibex s with
        | false => rfl
        | true => exact absurd hv hp
      have hdata : ("vibex-" ++ s).data = "vibex-".data ++ s.data :=
        String.data_append "vibex-" s
      have htv : startsWithVibex ("vibex-" ++ s) = true := by
        unfold startsWithVibex
        rw [hdata]
        exact isPrefixOf_self_append _ _
      have hne : ("vibex-" ++ s) ≠ "" := by
        intro h
        have := congrArg String.data h
        rw [hdata] at this
        simp at this
      refine ⟨"vibex-" ++ s, ?_, htv, ?_⟩
      · unfold normalizeSessionId
        rw [if_neg hs, if_pos hp']
      · unfold normalizeSessionId
        rw [if_neg hne, if_neg (by rw [htv]; exact fun h => Bool.noConfusion h)]
  · intro randomBytes
    refine ⟨(List.finRange 12).map fun i => sessionChar (randomBytes i), ?_, ?_, ?_⟩
    · unfold generateSessionId
      rw [String.data_append]
    · simp
    · intro c hc
      obtain ⟨i, _, rfl⟩ := List.mem_map.mp hc
      unfold sessionChar
      exact List.get_mem _ _ _
  · intro parse sid evs
    constructor
    · rw [run_sessionId]
      rfl
    · have h := run_sent_sid parse evs (initState sid)
        (by intro m hm; exact absurd hm (List.not_mem_nil m))
      exact h

/-- Witness theorem for C9 at concrete inputs: normalizing an
unprefixed and an already-prefixed identity, and generating from the
all-zero byte sequence. -/
theorem c9_session_identity_witness :
    (∃ t, normalizeSessionId "abc" = some t ∧ startsWithVibex t = true ∧
      normalizeSessionId t = some t) ∧
    (∃ t, normalizeSessionId "vibex-abc" = some t ∧ startsWithVibex t = true ∧
      normalizeSessionId t = some t) ∧
    (∃ suffix : List Char,
      (generateSessionId fun _ => 0).data = "vibex-".data ++ suffix ∧
      suffix.length = 12 ∧ ∀ c ∈ suffix, c ∈ sessionChars) ∧
    (run failParse (initState "vibex-w") [Ev.connect]).sessionId = "vibex-w" :=
  ⟨c9_session_identity.1 "abc" (by decide),
    c9_session_identity.1 "vibex-abc" (by decide),
    c9_session_identity.2.1 (fun _ => 0),
    (c9_session_identity.2.2 failParse "vibex-w" [Ev.connect]).1⟩

/-- C10, evaluated at the failing input: the CLI enables reconnection
with backoff capped at 5000 ms and an unlimited attempt count, and for
ordinary transport failures a reconnection attempt does follow — but
for a disconnect whose reason is `'io server disconnect'` (the server
intentionally closed the channel) no reconnection attempt happens at
all: the socket.io manager does not auto-reconnect on that reason, and
the CLI's `disconnect` handler never calls `socket.connect()`
(contradicting its own comment that the client "will reconnect
automatically"). -/
theorem c10_server_disconnect_stops_retries :
    cliSocketOptions.reconnection = true ∧
    cliSocketOptions.reconnectionDelay = 1000 ∧
    cliSocketOptions.reconnectionDelayMax = 5000 ∧
    cliSocketOptions.reconnectionAttemptsUnlimited = true ∧
    reconnectionAttempted "transport close" = true ∧
    reconnectionAttempted "transport error" = true ∧
    reconnectionAttempted "ping timeout" = true ∧
    reconnectionAttempted "io server disconnect" = false := by
  decide

end Vibex
